import Mathlib

/-!
Verification development for the heuristic tabular extraction engine of
`src/core/excel_processor.py` (class `ExcelProcessor`).

The Python code is shallowly embedded: each method becomes an executable
Lean definition over explicit data (grids of cell strings, lists of rows),
and external library behaviour (`unidecode`, Python `str.strip`/`str.lower`,
the `re` module applied to the concrete patterns of the source) is modelled
on the character set used in this development.  Fallible code returns
`Option`; the file writing / fatal-abort skeleton of `process` is modelled
as an explicit trace of written files.
-/

set_option maxRecDepth 4000

/-- Characters stripped by Python `str.strip()` (ASCII whitespace; the cells
in this development are ASCII after transliteration). -/
def is_py_space (c : Char) : Bool :=
  c = ' ' || c = '\t' || c = '\n' || c = '\r' || c = '\x0b' || c = '\x0c'

/-- Model of Python `str.strip()` on the character list of a string. -/
def py_strip_list (l : List Char) : List Char :=
  ((l.dropWhile is_py_space).reverse.dropWhile is_py_space).reverse

/-- Model of Python `str.strip()`. -/
def py_strip (s : String) : String := String.mk (py_strip_list s.data)

/-- Model of Python `str.lower()` (ASCII case folding; every string it is
applied to in this development is ASCII). -/
def py_lower (s : String) : String := String.mk (s.data.map Char.toLower)

/-- Model of the `unidecode` library on one character: identity on ASCII,
standard transliterations for the French accented letters appearing in this
development, identity fallback elsewhere. -/
def uni_char (c : Char) : String :=
  if c.toNat < 128 then String.mk [c]
  else if c = 'é' || c = 'è' || c = 'ê' || c = 'ë' then "e"
  else if c = 'É' || c = 'È' || c = 'Ê' || c = 'Ë' then "E"
  else if c = 'à' || c = 'â' || c = 'ä' then "a"
  else if c = 'À' || c = 'Â' then "A"
  else if c = 'î' || c = 'ï' then "i"
  else if c = 'ô' || c = 'ö' then "o"
  else if c = 'û' || c = 'ù' || c = 'ü' then "u"
  else if c = 'ç' then "c"
  else if c = 'Ç' then "C"
  else String.mk [c]

/-- Model of `unidecode` on a whole string. -/
def uni_str (s : String) : String :=
  String.mk (s.data.foldr (fun c acc => (uni_char c).data ++ acc) [])

/-- Scanner state for the substitution `re.sub(r"\\s+", " ", s)` of
`norm_text` (source line 58).  The pattern is written in a raw string with a
doubled backslash, so the regular expression is: a literal backslash
followed by one or more letters `s`. -/
inductive SubSt
  /-- scanning ordinary characters -/
  | plain
  /-- a backslash has been read and not yet emitted -/
  | sawbs
  /-- inside a run of `s` characters that is being replaced -/
  | inrun

/-- One left-to-right pass of `re.sub(r"\\s+", " ", s)`: every maximal
occurrence of a literal backslash followed by a nonempty run of `s`
characters is replaced by a single space. -/
def sub_bs_go : SubSt → List Char → List Char
  | .plain, [] => []
  | .plain, c :: r => if c = '\\' then sub_bs_go .sawbs r else c :: sub_bs_go .plain r
  | .sawbs, [] => ['\\']
  | .sawbs, c :: r =>
      if c = 's' then ' ' :: sub_bs_go .inrun r
      else if c = '\\' then '\\' :: sub_bs_go .sawbs r
      else '\\' :: c :: sub_bs_go .plain r
  | .inrun, [] => []
  | .inrun, c :: r =>
      if c = 's' then sub_bs_go .inrun r
      else if c = '\\' then sub_bs_go .sawbs r
      else c :: sub_bs_go .plain r

/-- The substitution `re.sub(r"\\s+", " ", s)` as performed by the source. -/
def sub_bs (l : List Char) : List Char := sub_bs_go .plain l

/-- Embedding of `ExcelProcessor.norm_text` (source lines 53-59):
`None` yields the empty string, otherwise
`unidecode(str(x)).lower().strip()` followed by
`re.sub(r"\\s+", " ", s)`. -/
def norm_text (x : Option String) : String :=
  match x with
  | none => ""
  | some v => String.mk (sub_bs (py_strip (py_lower (uni_str v))).data)

/-- Decide whether the first list is a prefix of the second (used to model
Python substring search). -/
def is_pre_of : List Char → List Char → Bool
  | [], _ => true
  | _ :: _, [] => false
  | a :: as, b :: bs => a = b && is_pre_of as bs

/-- Model of Python `needle in hay` substring membership on character
lists. -/
def has_sub : List Char → List Char → Bool
  | n, [] => n.isEmpty
  | n, c :: t => is_pre_of n (c :: t) || has_sub n t

/-- Model of Python `needle in hay` on strings. -/
def str_in (needle hay : String) : Bool := has_sub needle.data hay.data

/-- The canonical field families of `WANTED_LABELS` (source lines 31-43). -/
inductive Canon
  | code_perso
  | nom_prenom
  | courriel
  | telephone
deriving DecidableEq

/-- The dictionary `WANTED_LABELS` (source lines 31-43): each canonical
field mapped to its ordered list of acceptable label variants, kept
verbatim. -/
def wanted_labels : Canon → List String
  | .code_perso =>
      ["code perso", "code-personnel", "codepersonnel", "code", "id", "code personne"]
  | .nom_prenom =>
      ["nom et prénom", "nom et prenom", "nom & prénom", "nom & prenom",
       "nom, prénom", "nom, prenom", "nom et prénoms", "nom et prenoms",
       "nom et pr", "nom prenom", "nom/prénom", "nom/prenom",
       "nom"]
  | .courriel => ["courriel", "email", "e-mail", "adresse email", "adresse courriel"]
  | .telephone =>
      ["téléphone", "telephone", "tel", "no de téléphone", "no de telephone",
       "numero de telephone"]

/-- The field families in the iteration order of `WANTED_LABELS`. -/
def canon_list : List Canon := [.code_perso, .nom_prenom, .courriel, .telephone]

/-- Scan bound `HEADER_SEARCH_ROWS` (source line 26). -/
def HEADER_SEARCH_ROWS : Nat := 60

/-- Scan bound `HEADER_SEARCH_COLS` (source line 27). -/
def HEADER_SEARCH_COLS : Nat := 40

/-- Scan bound `TOP_SCAN_ROWS` (source line 28). -/
def TOP_SCAN_ROWS : Nat := 12

/-- Scan bound `TOP_SCAN_COLS` (source line 29). -/
def TOP_SCAN_COLS : Nat := 8

/-- A raw grid as read by `pd.read_excel(..., header=None)`: a rectangular
array of cells, each cell recorded as the string `str(x)` of its value.
`cell` is a total function; only positions with `r < nRows` and
`c < nCols` correspond to cells of the sheet. -/
structure Grid where
  nRows : Nat
  nCols : Nat
  cell : Nat → Nat → String

/-- Build a grid from a list of rows, reading missing positions as the
empty-string cell. -/
def grid_of_rows (rows : List (List String)) (nc : Nat) : Grid :=
  ⟨rows.length, nc, fun r c => (rows.getD r []).getD c ""⟩

/-- One family test of `find_header_row` (source line 70): does some cell of
row `r` (normalized, first `nC` columns) contain some label variant of the
family as a substring? -/
def family_hit (g : Grid) (nC r : Nat) (k : Canon) : Bool :=
  (List.range nC).any fun c =>
    (wanted_labels k).any fun lbl => str_in lbl (norm_text (some (g.cell r c)))

/-- The `hits` counter of `find_header_row` (source lines 68-71): how many
distinct field families have at least one hit in row `r`. -/
def header_hits (g : Grid) (r : Nat) : Nat :=
  canon_list.countP (family_hit g (min HEADER_SEARCH_COLS g.nCols) r)

/-- The scan loop of `find_header_row`: try rows `r0`, `r0+1`, ... for
`fuel` steps, returning the first row with at least two family hits. -/
def find_from (g : Grid) : Nat → Nat → Option Nat
  | 0, _ => none
  | fuel + 1, r0 => if 2 ≤ header_hits g r0 then some r0 else find_from g fuel (r0 + 1)

/-- Embedding of `ExcelProcessor.find_header_row` (source lines 61-74):
`some r` is the returned index, `none` models the raised
header-not-found `RuntimeError`. -/
def find_header_row (g : Grid) : Option Nat :=
  find_from g (min HEADER_SEARCH_ROWS g.nRows) 0

/-- The per-column family test of `map_columns` (source line 84):
`any(lbl == n or lbl in n for lbl in family)`. -/
def col_match (n : String) (k : Canon) : Bool :=
  (wanted_labels k).any fun lbl => lbl = n || str_in lbl n

/-- One column step of `map_columns` (source lines 79-86): skip columns with
empty normalized text, otherwise give every matching family that has no
mapping yet (`dict.setdefault`) the current column index. -/
def map_step (m : Canon → Option Nat) (idx : Nat) (name : String) : Canon → Option Nat :=
  let n := norm_text (some name)
  if n = "" then m
  else fun k => if (m k).isNone && col_match n k then some idx else m k

/-- The `enumerate(header_row)` fold of `map_columns`. -/
def map_go (m : Canon → Option Nat) (idx : Nat) : List String → (Canon → Option Nat)
  | [] => m
  | name :: rest => map_go (map_step m idx name) (idx + 1) rest

/-- Embedding of `ExcelProcessor.map_columns` (source lines 76-87): the
column mapping built from a header row, absent keys modelled as `none`. -/
def map_columns (hdr : List String) : Canon → Option Nat :=
  map_go (fun _ => none) 0 hdr

/-- List disjointness of two families' label-variant lists, decidably. -/
def labels_disjoint (a b : Canon) : Bool :=
  (wanted_labels a).all fun l => !((wanted_labels b).contains l)

/-- Drop an expected leading character sequence, returning the remainder
when the sequence is present. -/
def drop_pre : List Char → List Char → Option (List Char)
  | [], l => some l
  | _ :: _, [] => none
  | a :: as, b :: bs => if a = b then drop_pre as bs else none

/-- Tail of the regular expression of source line 96 after one of its
alternatives and the literal backslash: a nonempty run of `s` characters,
then `groupe`, then any number of colons and spaces.  (The pattern is the
raw string `(numero|numero du|no du)\\s+groupe[: ]*`, whose doubled
backslash denotes a literal backslash followed by `s+`.) -/
def s_groupe_tail : List Char → Bool
  | [] => false
  | c :: r =>
      c = 's' &&
        (match drop_pre "groupe".data (r.dropWhile fun x => x = 's') with
         | some rest => rest.all fun x => x = ':' || x = ' '
         | none => false)

/-- Whole-string match of the exact pattern of `scan_top_for_group`
(source line 96), exactly as the source regular expression reads: one of
`numero`, `numero du`, `no du`, then a literal backslash, then `s+`, then
`groupe`, then colons and spaces. -/
def exact_group_match (v : String) : Bool :=
  ["numero", "numero du", "no du"].any fun p =>
    match drop_pre (p.data ++ ['\\']) v.data with
    | some rest => s_groupe_tail rest
    | none => false

/-- Tail of the pattern as the specification words it ("group number label,
optionally followed by a colon/space"): whitespace, then `groupe`, then
colons and spaces. -/
def ws_groupe_tail : List Char → Bool
  | c :: r =>
      is_py_space c &&
        (match drop_pre "groupe".data (r.dropWhile is_py_space) with
         | some rest => rest.all fun c2 => c2 = ':' || c2 = ' '
         | none => false)
  | [] => false

/-- The strict group-number-label pattern as described by the specification
(the evident intent `(numero|numero du|no du)\s+groupe[: ]*` with `\s+`
denoting whitespace); kept separate so it can be compared with the
pattern the source actually compiles. -/
def spec_exact_group_match (v : String) : Bool :=
  ["numero", "numero du", "no du"].any fun p =>
    match drop_pre p.data v.data with
    | some rest => ws_groupe_tail rest
    | none => false

/-- The fuzzy fallback test of `scan_top_for_group` (source line 105). -/
def fuzzy_group_match (v : String) : Bool :=
  str_in "numero du groupe" v || str_in "no du groupe" v || str_in "numero groupe" v

/-- The row-major scan order of the nested loops of `scan_top_for_group`. -/
def scan_positions (nR nC : Nat) : List (Nat × Nat) :=
  (List.range nR).flatMap fun r => (List.range nC).map fun c => (r, c)

/-- Row bound of the metadata scan (source line 91). -/
def top_nR (g : Grid) : Nat := min TOP_SCAN_ROWS g.nRows

/-- Column bound of the metadata scan (source line 92). -/
def top_nC (g : Grid) : Nat := min TOP_SCAN_COLS g.nCols

/-- One position of a scan pass of `scan_top_for_group` (source lines
93-109): if the normalized cell matches the active pattern and the adjacent
column is inside the scanned block, read the adjacent cell, strip it, and
accept it when it is nonempty and not the textual `nan`. -/
def cell_val (g : Grid) (nC : Nat) (p : String → Bool) (rc : Nat × Nat) : Option String :=
  if p (norm_text (some (g.cell rc.1 rc.2))) then
    if rc.2 + 1 < nC then
      let val := py_strip (g.cell rc.1 (rc.2 + 1))
      if val ≠ "" ∧ py_lower val ≠ "nan" then some val else none
    else none
  else none

/-- One full pass of `scan_top_for_group`: first accepted value in
row-major order, if any. -/
def scan_pass (g : Grid) (p : String → Bool) : Option String :=
  (scan_positions (top_nR g) (top_nC g)).findSome? (cell_val g (top_nC g) p)

/-- Embedding of `ExcelProcessor.scan_top_for_group` (source lines 89-110):
the exact-pattern pass over the whole block, then the fuzzy pass only if the
first pass accepted nothing, then the empty string. -/
def scan_top_for_group (g : Grid) : String :=
  match scan_pass g exact_group_match with
  | some v => v
  | none =>
      match scan_pass g fuzzy_group_match with
      | some v => v
      | none => ""

/-- The character class `[^\\d+]` of source line 117 keeps exactly these
characters: inside a character class the doubled backslash of the raw
string denotes a literal backslash, so the class removes everything except
backslashes, the letter `d`, and the plus sign. -/
def keep_phone_char (c : Char) : Bool := c = '\\' || c = 'd' || c = '+'

/-- Embedding of `ExcelProcessor.clean_phone` (source lines 112-127).
`parse_e164` abstracts the optional `phonenumbers` capability: it returns
`some formatted` when `phonenumbers.parse` succeeds and the number
validates, and `none` when parsing raises or validation fails; the
capability-unavailable configuration is `fun s => none`. -/
def clean_phone (parse_e164 : String → Option String) (x : Option String) : String :=
  match x with
  | none => ""
  | some value =>
      let s := String.mk ((py_strip value).data.filter keep_phone_char)
      if s = "" then ""
      else
        match parse_e164 s with
        | some e164 => e164
        | none => s

/-- A record of the working table after column mapping and phone cleaning
(source lines 168-177): the four canonical string fields of one row. -/
structure Row where
  code_perso : String
  nom_prenom : String
  courriel : String
  telephone : String
deriving DecidableEq

/-- The rejection reason constant attached to every rejected row (source
line 190); the specification renders it in English as
"missing phone and name". -/
def raison_msg : String := "Manque phone ET nom_prenom"

/-- The `is_all_empty` test of source lines 180-182: all four canonical
fields are empty after stripping. -/
def row_all_empty (r : Row) : Bool :=
  py_strip r.code_perso = "" && py_strip r.nom_prenom = "" &&
    py_strip r.courriel = "" && py_strip r.telephone = ""

/-- Blank-row removal (source line 183): keep the rows that are not fully
empty, preserving order. -/
def drop_blanks (wt : List Row) : List Row := wt.filter fun r => !(row_all_empty r)

/-- The `ok_mask` completeness test of source line 186: nonzero length of
the phone field or of the name field. -/
def row_ok (r : Row) : Bool := 0 < r.telephone.length || 0 < r.nom_prenom.length

/-- The accepted partition `cleaned` (source line 187). -/
def cleaned_rows (wt : List Row) : List Row := (drop_blanks wt).filter row_ok

/-- The rejected rows before the reason column is attached (source
line 188). -/
def error_base (wt : List Row) : List Row :=
  (drop_blanks wt).filter fun r => !(row_ok r)

/-- The rejected partition `errors` with its reason column (source lines
188-190). -/
def error_rows (wt : List Row) : List (Row × String) :=
  (error_base wt).map fun r => (r, raison_msg)

/-- Summary count `rows_total` (source line 201): the length of the working
table after blank-row removal. -/
def rows_total (wt : List Row) : Nat := (drop_blanks wt).length

/-- Summary count `rows_cleaned` (source line 202). -/
def rows_cleaned (wt : List Row) : Nat := (cleaned_rows wt).length

/-- Summary count `rows_errors` (source line 203). -/
def rows_errors (wt : List Row) : Nat := (error_rows wt).length

/-- The output files `process` can write (source lines 139, 193, 194,
210). -/
inductive OutFile
  | input_snapshot
  | cleaned_csv
  | errors_csv
  | summary_json
deriving DecidableEq

/-- The fatal conditions of `process` (source lines 131-132 and 74). -/
inductive Fatal
  | file_not_found
  | header_not_found
deriving DecidableEq

/-- The environment a run of `process` sees: whether the input resource
exists, and the raw grid read from it when it does. -/
structure Env where
  input_exists : Bool
  grid : Grid

/-- The file-writing and fatal-abort skeleton of `ExcelProcessor.process`
(source lines 129-216), as the ordered trace of output files written
together with the fatal condition, if any: a missing input aborts before
anything is written; the raw-grid snapshot is written before the header
search, so an unlocatable header aborts with only the snapshot written; a
successful run writes the snapshot, both record tables, and the summary. -/
def process_writes (e : Env) : List OutFile × Option Fatal :=
  if e.input_exists then
    match find_header_row e.grid with
    | none => ([.input_snapshot], some .header_not_found)
    | some _ =>
        ([.input_snapshot, .cleaned_csv, .errors_csv, .summary_json], none)
  else ([], some .file_not_found)

/-- C7 (code defect): the Text Normalizer does not collapse interior
whitespace — "a  b" keeps its double space — because the substitution
pattern was written `r"\\s+"`, which replaces a literal backslash followed
by a run of `s` characters (so "a\ssb" becomes "a b"), in contradiction
with the docstring "collapse spaces"; absent input still yields the empty
string. -/
theorem norm_text_keeps_interior_whitespace_bug :
    norm_text (some "a  b") = "a  b"
    ∧ ("a  b" : String) ≠ "a b"
    ∧ norm_text (some "a\\ssb") = "a b"
    ∧ norm_text none = "" := by
  decide

/-- C4 (code defect): the character class of `clean_phone` was written
`[^\\d+]`, which keeps only backslashes, the letter `d` and the plus sign —
digits included are removed — so "(514) 555-0100" is reduced to the empty
string and the function returns "" whatever the enhanced-parsing
capability does, instead of "+15145550100" or "5145550100". -/
theorem clean_phone_strips_digits_bug :
    (∀ parse_e164 : String → Option String,
      clean_phone parse_e164 (some "(514) 555-0100") = "")
    ∧ ("" : String) ≠ "5145550100"
    ∧ ("" : String) ≠ "+15145550100" := by
  refine ⟨fun parse_e164 => ?_, by decide, by decide⟩
  rfl

/-- C8 (code defect): the Phone Normalizer is not idempotent on E.164
numbers — the same `[^\\d+]` class strips the digits of "+15145550100",
leaving only "+", which is what every capability configuration then
returns (the real `phonenumbers.parse` raises on "+", which the code
swallows, returning the stripped string). -/
theorem clean_phone_not_idempotent_bug :
    clean_phone (fun _ => none) (some "+15145550100") = "+"
    ∧ (∀ parse_e164 : String → Option String,
        clean_phone parse_e164 (some "+15145550100") =
          match parse_e164 "+" with
          | some e164 => e164
          | none => "+")
    ∧ ("+" : String) ≠ "+15145550100" := by
  refine ⟨by decide, fun parse_e164 => ?_, by decide⟩
  rfl

/-- Adjacency test: does the character list contain a literal backslash
immediately followed by the letter `s`? -/
def has_bs : List Char → Bool
  | [] => false
  | c :: t => (c = '\\' && t.head? = some 's') || has_bs t

/-- The output of the substitution scanner, in the state where a backslash
has just been read, never starts with the letter `s`. -/
theorem sub_bs_go_sawbs_head (r : List Char) : (sub_bs_go .sawbs r).head? ≠ some 's' := by
  cases r with
  | nil => simp [sub_bs_go]
  | cons c t =>
    by_cases h1 : c = 's'
    · simp [sub_bs_go, h1]
    · by_cases h2 : c = '\\' <;> simp [sub_bs_go, h1, h2]

/-- The substitution of `norm_text` leaves no backslash-`s` adjacency in
its output: every such occurrence is consumed and replaced by a space. -/
theorem sub_bs_go_no_bs : ∀ (l : List Char) (st : SubSt), has_bs (sub_bs_go st l) = false := by
  intro l
  induction l with
  | nil => intro st; cases st <;> decide
  | cons c r ih =>
    intro st
    cases st with
    | plain =>
      by_cases h1 : c = '\\'
      · simpa [sub_bs_go, h1] using ih .sawbs
      · simp [sub_bs_go, h1, has_bs, ih .plain]
    | sawbs =>
      by_cases h1 : c = 's'
      · simp [sub_bs_go, h1, has_bs, ih .inrun]
      · by_cases h2 : c = '\\'
        · simp only [sub_bs_go, h1, h2, if_neg, if_pos, if_false, if_true]
          simp [has_bs, sub_bs_go_sawbs_head r, ih .sawbs]
        · simp [sub_bs_go, h1, h2, has_bs, ih .plain]
    | inrun =>
      by_cases h1 : c = 's'
      · simpa [sub_bs_go, h1] using ih .inrun
      · by_cases h2 : c = '\\'
        · simpa [sub_bs_go, h1, h2] using ih .sawbs
        · simp [sub_bs_go, h1, h2, has_bs, ih .plain]

/-- The full substitution leaves no backslash-`s` adjacency. -/
theorem sub_bs_no_bs (l : List Char) : has_bs (sub_bs l) = false :=
  sub_bs_go_no_bs l .plain

/-- Dropping a found leading sequence decomposes the list. -/
theorem drop_pre_eq : ∀ (pre l rest : List Char),
    drop_pre pre l = some rest → l = pre ++ rest := by
  intro pre
  induction pre with
  | nil => intro l rest h; injection h with h
  | cons a as ih =>
    intro l rest h
    cases l with
    | nil => cases h
    | cons b bs =>
      rw [drop_pre] at h
      by_cases hab : a = b
      · rw [if_pos hab] at h
        rw [List.cons_append, hab, ih bs rest h]
      · rw [if_neg hab] at h
        cases h

/-- A successful tail match of the source's exact pattern starts with the
letter `s`. -/
theorem s_groupe_tail_head (l : List Char) (h : s_groupe_tail l = true) :
    l.head? = some 's' := by
  cases l with
  | nil => cases h
  | cons c r =>
    rw [s_groupe_tail, Bool.and_eq_true] at h
    have hc : c = 's' := by simpa using h.1
    rw [hc]
    rfl

/-- Any backslash-`s` adjacency survives prepending. -/
theorem has_bs_append (s : List Char) (t : List Char) (h : has_bs t = true) :
    has_bs (s ++ t) = true := by
  induction s with
  | nil => simpa using h
  | cons a s' ih => simp [has_bs, ih]

/-- A string accepted by the source's exact pattern contains a literal
backslash immediately followed by `s`. -/
theorem exact_match_has_bs (v : String) (h : exact_group_match v = true) :
    has_bs v.data = true := by
  rw [exact_group_match, List.any_eq_true] at h
  rcases h with ⟨p, _, hp⟩
  rcases hdp : drop_pre (p.data ++ ['\\']) v.data with _ | rest
  · rw [hdp] at hp
    cases hp
  · rw [hdp] at hp
    have hv : v.data = (p.data ++ ['\\']) ++ rest := drop_pre_eq _ _ _ hdp
    have hhead : rest.head? = some 's' := s_groupe_tail_head rest hp
    cases rest with
    | nil => cases hhead
    | cons c r' =>
      have hc : c = 's' := by injection hhead
      rw [hv, List.append_assoc]
      apply has_bs_append
      simp [has_bs, hc]

/-- The exact pass of the metadata scanner can never accept: its pattern
demands a backslash-`s` adjacency that normalization has already removed. -/
theorem exact_pass_dead (x : Option String) : exact_group_match (norm_text x) = false := by
  cases x with
  | none => decide
  | some v =>
    cases hb : exact_group_match (norm_text (some v)) with
    | false => rfl
    | true =>
      have h1 : has_bs (norm_text (some v)).data = true := exact_match_has_bs _ hb
      have h2 : (norm_text (some v)).data = sub_bs (py_strip (py_lower (uni_str v))).data := rfl
      rw [h2, sub_bs_no_bs] at h1
      cases h1

/-- C5 (code defect): the strict pattern of the metadata scanner can never
match any normalized cell — the raw string `r"...\\s+..."` denotes a
literal backslash followed by `s`, an adjacency `norm_text` has always
already replaced — so the exact pass is dead; the specification's own
strict pattern accepts the canonical label, and on a block whose earlier
cell matches only fuzzily while a later cell is exactly the group label,
the scanner returns the earlier fuzzy value "A" instead of the strictly
matching cell's value "B". -/
theorem scan_exact_pass_dead_bug :
    (∀ x : Option String, exact_group_match (norm_text x) = false)
    ∧ spec_exact_group_match (norm_text (some "Numero du Groupe")) = true
    ∧ scan_top_for_group
        (grid_of_rows [["le numero du groupe", "A"], ["numero du groupe", "B"]] 2) = "A" :=
  ⟨exact_pass_dead, by decide, by decide⟩

/-- A string has positive length exactly when it is not the empty string. -/
theorem string_pos_len_iff (s : String) : 0 < s.length ↔ s ≠ "" := by
  cases s with
  | mk l =>
    cases l with
    | nil => simp [String.length]
    | cons c t => simp [String.length, String.ext_iff]

/-- C1: every row of the working table that survives blank-row removal is
accepted iff its phone field or its name field is a non-empty string, every
rejected row carries the constant rejection reason (the source constant
"Manque phone ET nom_prenom", rendered in the specification as "missing
phone and name"), and rejection is exactly the complement of acceptance —
so a row with empty phone and name but non-empty email is rejected. -/
theorem validator_accepts_iff_phone_or_name (wt : List Row) (r : Row)
    (hmem : r ∈ drop_blanks wt) :
    (r ∈ cleaned_rows wt ↔ (r.telephone ≠ "" ∨ r.nom_prenom ≠ ""))
    ∧ ((r, raison_msg) ∈ error_rows wt ↔ ¬(r.telephone ≠ "" ∨ r.nom_prenom ≠ ""))
    ∧ (∀ p ∈ error_rows wt, p.2 = raison_msg) := by
  refine ⟨?_, ?_, ?_⟩
  · simp [cleaned_rows, List.mem_filter, hmem, row_ok, string_pos_len_iff]
  · simp [error_rows, error_base, List.mem_map, List.mem_filter, Prod.ext_iff, hmem,
      row_ok, string_pos_len_iff]
  · intro p hp
    rcases List.mem_map.mp hp with ⟨a, _, rfl⟩
    rfl

/-- Witness for C1 at the scenario row with empty phone and name but email
"x@y.com": it survives blank-row removal and lands in the rejected table
with the rejection reason. -/
theorem validator_email_only_rejected :
    (Row.mk "" "" "x@y.com" "", raison_msg) ∈ error_rows [Row.mk "" "" "x@y.com" ""] :=
  ((validator_accepts_iff_phone_or_name [Row.mk "" "" "x@y.com" ""]
      (Row.mk "" "" "x@y.com" "") (by decide)).2.1).mpr (by decide)

/-- C2: partitioning the working table after blank-row removal is a total,
disjoint, order-preserving split — the summary counts add up, both parts
are sublists of the working table, no row is in both parts, per-row
multiplicities add up, and the two parts together are a permutation of the
working table. -/
theorem partition_disjoint_union_counts (wt : List Row) :
    rows_total wt = rows_cleaned wt + rows_errors wt
    ∧ (cleaned_rows wt).Sublist (drop_blanks wt)
    ∧ (error_base wt).Sublist (drop_blanks wt)
    ∧ (∀ r, r ∈ cleaned_rows wt → r ∉ error_base wt)
    ∧ (∀ r, (cleaned_rows wt).count r + (error_base wt).count r = (drop_blanks wt).count r)
    ∧ (cleaned_rows wt ++ error_base wt).Perm (drop_blanks wt) := by
  have hperm : (cleaned_rows wt ++ error_base wt).Perm (drop_blanks wt) := by
    simpa [cleaned_rows, error_base] using List.filter_append_perm row_ok (drop_blanks wt)
  refine ⟨?_, List.filter_sublist _, List.filter_sublist _, ?_, ?_, hperm⟩
  · have hlen := hperm.length_eq
    simp only [List.length_append] at hlen
    simp [rows_total, rows_cleaned, rows_errors, error_rows, List.length_map, ← hlen]
  · intro r hc he
    have h1 := (List.mem_filter.mp hc).2
    have h2 := (List.mem_filter.mp he).2
    simp [h1] at h2
  · intro r
    rw [← List.count_append, hperm.count_eq]

/-- The scan loop of the header locator returns `some r` exactly for the
first row at or after `r0`, within `fuel` rows, reaching two family
hits. -/
theorem find_from_some_iff (g : Grid) :
    ∀ (fuel r0 r : Nat), find_from g fuel r0 = some r ↔
      (r0 ≤ r ∧ r < r0 + fuel ∧ 2 ≤ header_hits g r ∧
        ∀ r', r0 ≤ r' → r' < r → header_hits g r' < 2) := by
  intro fuel
  induction fuel with
  | zero =>
    intro r0 r
    simp only [find_from]
    constructor
    · intro h; cases h
    · rintro ⟨h1, h2, -, -⟩; exact absurd h2 (by omega)
  | succ fuel ih =>
    intro r0 r
    rw [find_from]
    by_cases h : 2 ≤ header_hits g r0
    · rw [if_pos h]
      constructor
      · intro hsome
        injection hsome with hr
        subst hr
        exact ⟨le_refl _, by omega, h, fun r' h1 h2 => absurd h1 (by omega)⟩
      · rintro ⟨h1, h2, h3, h4⟩
        have hr : r = r0 := by
          by_contra hne
          have hlt : r0 < r := lt_of_le_of_ne h1 (Ne.symm hne)
          exact absurd h (not_le.mpr (h4 r0 (le_refl _) hlt))
        subst hr; rfl
    · rw [if_neg h, ih (r0 + 1) r]
      constructor
      · rintro ⟨h1, h2, h3, h4⟩
        refine ⟨by omega, by omega, h3, fun r' ha hb => ?_⟩
        rcases Nat.lt_or_ge r' (r0 + 1) with hc | hc
        · have hr' : r' = r0 := by omega
          subst hr'; omega
        · exact h4 r' hc hb
      · rintro ⟨h1, h2, h3, h4⟩
        have hne : r0 + 1 ≤ r := by
          rcases Nat.eq_or_lt_of_le h1 with he | hl
          · subst he; omega
          · omega
        exact ⟨hne, by omega, h3, fun r' ha hb => h4 r' (by omega) hb⟩

/-- The scan loop of the header locator returns `none` exactly when no row
in its range reaches two family hits. -/
theorem find_from_none_iff (g : Grid) :
    ∀ (fuel r0 : Nat), find_from g fuel r0 = none ↔
      ∀ r, r0 ≤ r → r < r0 + fuel → header_hits g r < 2 := by
  intro fuel
  induction fuel with
  | zero =>
    intro r0
    simp only [find_from]
    constructor
    · intro _ r h1 h2; omega
    · intro _; trivial
  | succ fuel ih =>
    intro r0
    rw [find_from]
    by_cases h : 2 ≤ header_hits g r0
    · rw [if_pos h]
      constructor
      · intro hsome; cases hsome
      · intro hall
        have := hall r0 (le_refl _) (by omega)
        omega
    · rw [if_neg h, ih (r0 + 1)]
      constructor
      · intro hall r hr1 hr2
        rcases Nat.lt_or_ge r (r0 + 1) with hc | hc
        · have hr : r = r0 := by omega
          subst hr; omega
        · exact hall r hc (by omega)
      · intro hall r hr1 hr2
        exact hall r (by omega) (by omega)

/-- C3: the header locator returns the topmost row within the scan bounds
(60 rows by 40 columns, capped by the grid size) in which at least two
distinct field families have some label variant occurring as a substring of
some normalized cell, and it fails with the header-not-found condition
exactly when no row within the bounds reaches that threshold. -/
theorem header_locator_first_qualifying_row (g : Grid) :
    (∀ r, find_header_row g = some r ↔
      (r < min HEADER_SEARCH_ROWS g.nRows ∧ 2 ≤ header_hits g r ∧
        ∀ r', r' < r → header_hits g r' < 2))
    ∧ (find_header_row g = none ↔
        ∀ r, r < min HEADER_SEARCH_ROWS g.nRows → header_hits g r < 2) := by
  constructor
  · intro r
    rw [find_header_row, find_from_some_iff]
    constructor
    · rintro ⟨h1, h2, h3, h4⟩
      exact ⟨by omega, h3, fun r' hb => h4 r' (Nat.zero_le _) hb⟩
    · rintro ⟨h1, h2, h3⟩
      exact ⟨Nat.zero_le _, by omega, h2, fun r' _ hb => h3 r' hb⟩
  · rw [find_header_row, find_from_none_iff]
    constructor
    · intro hall r hr; exact hall r (Nat.zero_le _) (by omega)
    · intro hall r h1 h2; exact hall r (by omega)

/-- Witness for C3: a grid whose second row holds the labels `code` and
`telephone` is located at index 1, the noise row above reaching no
hits. -/
theorem header_locator_demo :
    find_header_row (grid_of_rows [["x", "y"], ["code", "telephone"]] 2) = some 1 :=
  ((header_locator_first_qualifying_row
    (grid_of_rows [["x", "y"], ["code", "telephone"]] 2)).1 1).mpr (by decide)

/-- One column step of the mapper, written as a single conditional. -/
theorem map_step_eq (m : Canon → Option Nat) (idx : Nat) (name : String) (k : Canon) :
    map_step m idx name k =
      if norm_text (some name) = "" then m k
      else if (m k).isNone && col_match (norm_text (some name)) k then some idx
      else m k := by
  unfold map_step
  by_cases hn : norm_text (some name) = "" <;> simp [hn]

/-- Any column index recorded by the column-mapper fold either was already
present or points at a column whose normalized text matches the recorded
family. -/
theorem map_go_some (k : Canon) (c : Nat) :
    ∀ (hdr : List String) (m : Canon → Option Nat) (idx : Nat),
      map_go m idx hdr k = some c →
      m k = some c ∨ (∃ j, j < hdr.length ∧ c = idx + j ∧
        col_match (norm_text (some (hdr.getD j ""))) k = true) := by
  intro hdr
  induction hdr with
  | nil => intro m idx h; exact Or.inl h
  | cons name rest ih =>
    intro m idx h
    rcases ih (map_step m idx name) (idx + 1) h with hm | ⟨j, hj, hc, hcol⟩
    · rw [map_step_eq] at hm
      by_cases hn : norm_text (some name) = ""
      · rw [if_pos hn] at hm
        exact Or.inl hm
      · rw [if_neg hn] at hm
        by_cases hcond : ((m k).isNone && col_match (norm_text (some name)) k) = true
        · rw [if_pos hcond] at hm
          injection hm with hidx
          refine Or.inr ⟨0, by simp, by omega, ?_⟩
          rw [List.getD_cons_zero]
          exact ((Bool.and_eq_true _ _).mp hcond).2
        · rw [if_neg hcond] at hm
          exact Or.inl hm
    · refine Or.inr ⟨j + 1, by simp [List.length_cons]; omega, by omega, ?_⟩
      rw [List.getD_cons_succ]
      exact hcol

/-- C6 counterexample: the label-variant sets of the person-code and phone
families are disjoint, yet the header cell "code telephone" maps both
canonical fields to column 0. -/
theorem map_columns_disjoint_collision_cex :
    labels_disjoint Canon.code_perso Canon.telephone = true
    ∧ map_columns ["code telephone"] Canon.code_perso = some 0
    ∧ map_columns ["code telephone"] Canon.telephone = some 0
    ∧ Canon.code_perso ≠ Canon.telephone := by
  decide

/-- C6 amended: whenever the Column Mapper sends two canonical fields to
the same column position, that column's normalized text matches (equals or
contains) some label variant of each of the two fields — which can happen
even for fields whose label-variant sets are disjoint, when one header cell
contains variants of both families. -/
theorem map_columns_shared_column_matches_both (hdr : List String) (k1 k2 : Canon) (c : Nat)
    (h1 : map_columns hdr k1 = some c) (h2 : map_columns hdr k2 = some c) :
    c < hdr.length
    ∧ col_match (norm_text (some (hdr.getD c ""))) k1 = true
    ∧ col_match (norm_text (some (hdr.getD c ""))) k2 = true := by
  rcases map_go_some k1 c hdr (fun _ => none) 0 h1 with hm | ⟨j, hj, hc, hcol⟩
  · cases hm
  · rcases map_go_some k2 c hdr (fun _ => none) 0 h2 with hm2 | ⟨j2, hj2, hc2, hcol2⟩
    · cases hm2
    · have e1 : j = c := by omega
      subst e1
      have e2 : j2 = j := by omega
      subst e2
      exact ⟨hj, hcol, hcol2⟩

/-- Witness for the amended C6 at the colliding header "code telephone". -/
theorem map_columns_shared_column_witness :
    0 < (["code telephone"] : List String).length
    ∧ col_match (norm_text (some ((["code telephone"] : List String).getD 0 "")))
        Canon.code_perso = true
    ∧ col_match (norm_text (some ((["code telephone"] : List String).getD 0 "")))
        Canon.telephone = true :=
  map_columns_shared_column_matches_both ["code telephone"] Canon.code_perso Canon.telephone 0
    (by decide) (by decide)

/-- C9: a fatal run writes no record tables and no summary — a missing
input aborts with nothing written at all, an unlocatable header aborts with
only the diagnostic raw-grid snapshot written, and in general any fatal
outcome leaves the accepted table, the rejected table and the summary
unwritten. -/
theorem process_fatal_writes (e : Env) :
    (e.input_exists = false → process_writes e = ([], some Fatal.file_not_found))
    ∧ (e.input_exists = true → find_header_row e.grid = none →
        process_writes e = ([OutFile.input_snapshot], some Fatal.header_not_found))
    ∧ (∀ f, (process_writes e).2 = some f →
        OutFile.cleaned_csv ∉ (process_writes e).1
        ∧ OutFile.errors_csv ∉ (process_writes e).1
        ∧ OutFile.summary_json ∉ (process_writes e).1) := by
  refine ⟨?_, ?_, ?_⟩
  · intro h; simp [process_writes, h]
  · intro h1 h2; simp [process_writes, h1, h2]
  · intro f hf
    by_cases h : e.input_exists
    · cases hh : find_header_row e.grid with
      | none => simp [process_writes, h, hh]
      | some r => simp [process_writes, h, hh] at hf
    · simp [process_writes, h]

/-- Witness for C9: the two fatal scenarios evaluated on a concrete
environment with an empty grid. -/
theorem process_fatal_writes_demo :
    process_writes ⟨false, grid_of_rows [] 0⟩ = ([], some Fatal.file_not_found)
    ∧ process_writes ⟨true, grid_of_rows [] 0⟩ =
        ([OutFile.input_snapshot], some Fatal.header_not_found) :=
  ⟨(process_fatal_writes ⟨false, grid_of_rows [] 0⟩).1 rfl,
   (process_fatal_writes ⟨true, grid_of_rows [] 0⟩).2.1 rfl (by decide)⟩

/-- Positions of the metadata scan are exactly the in-block coordinates. -/
theorem mem_scan_positions (nR nC : Nat) (rc : Nat × Nat) :
    rc ∈ scan_positions nR nC ↔ rc.1 < nR ∧ rc.2 < nC := by
  cases rc with
  | mk r c =>
    simp [scan_positions, List.mem_flatMap, List.mem_map, List.mem_range, Prod.ext_iff]

/-- Two pointwise-equal option-valued functions find the same first
value. -/
theorem findSome_congr {α β : Type} (f h : α → Option β) :
    ∀ l : List α, (∀ x ∈ l, f x = h x) → l.findSome? f = l.findSome? h := by
  intro l
  induction l with
  | nil => intro _; rfl
  | cons a t ih =>
    intro hfh
    rw [List.findSome?_cons, List.findSome?_cons, hfh a (by simp)]
    cases h a with
    | some b => rfl
    | none => exact ih fun x hx => hfh x (by simp [hx])

/-- A position whose adjacent column lies outside the scanned block yields
no value, whatever the cell contains. -/
theorem cell_val_no_adj (g : Grid) (nC : Nat) (p : String → Bool) (rc : Nat × Nat)
    (h : ¬(rc.2 + 1 < nC)) : cell_val g nC p rc = none := by
  unfold cell_val
  by_cases hp : p (norm_text (some (g.cell rc.1 rc.2))) = true
  · rw [if_pos hp, if_neg h]
  · rw [if_neg hp]

/-- The accept test at one position reads only cells inside the scanned
block. -/
theorem cell_val_congr (g g2 : Grid) (nR nC : Nat) (p : String → Bool) (rc : Nat × Nat)
    (hr : rc.1 < nR) (hc : rc.2 < nC)
    (hagree : ∀ r, r < nR → ∀ c, c < nC → g2.cell r c = g.cell r c) :
    cell_val g2 nC p rc = cell_val g nC p rc := by
  unfold cell_val
  rw [hagree rc.1 hr rc.2 hc]
  by_cases hp : p (norm_text (some (g.cell rc.1 rc.2))) = true
  · rw [if_pos hp, if_pos hp]
    by_cases hadj : rc.2 + 1 < nC
    · rw [if_pos hadj, if_pos hadj, hagree rc.1 hr (rc.2 + 1) hadj]
    · rw [if_neg hadj, if_neg hadj]
  · rw [if_neg hp, if_neg hp]

/-- C10: the adjacent-value read of the metadata scanner is guarded by the
column bound — the scanner's result depends only on the cells of the
scanned block, so a value sitting just outside it is never read, and a
block in which no position with an in-bounds adjacent column accepts makes
the scan return the empty string, even when labels match in the last
scanned column and the grid holds a value beside them. -/
theorem scan_adjacent_guard (g : Grid) :
    (∀ g2 : Grid, g2.nRows = g.nRows → g2.nCols = g.nCols →
      (∀ r, r < top_nR g → ∀ c, c < top_nC g → g2.cell r c = g.cell r c) →
      scan_top_for_group g2 = scan_top_for_group g)
    ∧ ((∀ r, r < top_nR g → ∀ c, c < top_nC g → c + 1 < top_nC g →
          cell_val g (top_nC g) exact_group_match (r, c) = none
          ∧ cell_val g (top_nC g) fuzzy_group_match (r, c) = none) →
        scan_top_for_group g = "") := by
  constructor
  · intro g2 hrows hcols hagree
    have hnR : top_nR g2 = top_nR g := by rw [top_nR, top_nR, hrows]
    have hnC : top_nC g2 = top_nC g := by rw [top_nC, top_nC, hcols]
    have hpass : ∀ p, scan_pass g2 p = scan_pass g p := by
      intro p
      rw [scan_pass, scan_pass, hnR, hnC]
      apply findSome_congr
      intro rc hrc
      rcases (mem_scan_positions _ _ rc).mp hrc with ⟨ha, hb⟩
      exact cell_val_congr g g2 (top_nR g) (top_nC g) p rc ha hb hagree
    rw [scan_top_for_group, scan_top_for_group, hpass, hpass]
  · intro hnone
    have hpassnone : ∀ p, (p = exact_group_match ∨ p = fuzzy_group_match) →
        scan_pass g p = none := by
      intro p hp
      rw [scan_pass, List.findSome?_eq_none_iff]
      intro rc hrc
      rcases (mem_scan_positions _ _ rc).mp hrc with ⟨ha, hb⟩
      by_cases hadj : rc.2 + 1 < top_nC g
      · obtain ⟨r, c⟩ := rc
        rcases hp with hp | hp <;> rw [hp]
        · exact (hnone r ha c hb hadj).1
        · exact (hnone r ha c hb hadj).2
      · exact cell_val_no_adj g (top_nC g) p rc hadj
    rw [scan_top_for_group, hpassnone _ (Or.inl rfl), hpassnone _ (Or.inr rfl)]

/-- Witness for C10: the label in the last scanned column (column 7 of a
9-column grid) yields nothing even though "G-104" sits beside it at column
8, and changing that out-of-block cell does not change the scanner's
result. -/
theorem scan_adjacent_guard_demo :
    scan_top_for_group
      (grid_of_rows [["", "", "", "", "", "", "", "numero du groupe", "G-104"]] 9) = ""
    ∧ (grid_of_rows [["", "", "", "", "", "", "", "numero du groupe", "G-104"]] 9).cell 0 8 =
        "G-104"
    ∧ scan_top_for_group
        (grid_of_rows [["", "", "", "", "", "", "", "numero du groupe", "OTHER"]] 9) =
      scan_top_for_group
        (grid_of_rows [["", "", "", "", "", "", "", "numero du groupe", "G-104"]] 9) :=
  ⟨(scan_adjacent_guard (grid_of_rows [["", "", "", "", "", "", "", "numero du groupe",
      "G-104"]] 9)).2 (by decide),
   by decide,
   (scan_adjacent_guard (grid_of_rows [["", "", "", "", "", "", "", "numero du groupe",
      "G-104"]] 9)).1 _ rfl rfl (by decide)⟩

/-- Witness for C2: the summary count identity at a concrete working
table. -/
theorem partition_counts_demo :
    rows_total [Row.mk "" "n" "" "", Row.mk "" "" "x@y.com" "", Row.mk "" "" "" ""] =
      rows_cleaned [Row.mk "" "n" "" "", Row.mk "" "" "x@y.com" "", Row.mk "" "" "" ""] +
        rows_errors [Row.mk "" "n" "" "", Row.mk "" "" "x@y.com" "", Row.mk "" "" "" ""] :=
  (partition_disjoint_union_counts
    [Row.mk "" "n" "" "", Row.mk "" "" "x@y.com" "", Row.mk "" "" "" ""]).1

